import Mathlib

/-!
Verification of the Program Opportunity Scoring Engine
(`scripts/program_decision_engine.py`, with the derived columns written by
`scripts/etl_college_data.py`).

Embedding conventions:
* pandas float columns are modelled over `ℚ`; a nullable cell (`NaN`) is
  `Option ℚ` with `none` for missing.
* a DataFrame is a `List` of rows in insertion order; a pandas column
  operation is an elementwise function of the row plus whole-column
  statistics, which is exactly how the source uses them.
* `df.sort_values(key, ascending=False)` is modelled by a stable descending
  insertion sort.  pandas argsorts the reversed column and reverses the
  indexer back, so for frames of at most 16 rows (numpy introsort runs its
  stable insertion sort below its small-array cutoff) this model is exact;
  for larger frames numpy's default quicksort gives an implementation-defined
  tie order, which the model does not reproduce (relevant to the stability
  contract, treated separately).
-/

/-- One row of the `programs` table as the engine reads it.  Column names with
dots (`school.region_id`, `latest.cost.tuition.in_state`, ...) are flattened to
legal Lean identifiers.  The `cip` filter field corresponds to the source's
CIP-code string filter (`--cip` on the CLI).  `region_name`/`credential_name`
display columns are omitted: they feed no numeric field and no filter. -/
structure Row where
  program_code : String
  program_credential_level : Int
  region_id : Option Int
  tuition_in_state : Option ℚ
  tuition_out_of_state : Option ℚ
  avg_net_price : Option ℚ
  net_price_public : Option ℚ
  net_price_private : Option ℚ
  scholarship_volatility : Option ℚ
  housing_discrepancy_flag : Bool
  pell_grant_rate : Option ℚ
  federal_loan_rate : Option ℚ
  student_size : Option ℚ
  deriving DecidableEq, Repr

/-- `ProgramFilters` dataclass.  `cip` is the CIP-code string filter field of
the source (its name there ends in the word after `cip_`); `top_k` defaults
to 15 as in the source. -/
structure ProgramFilters where
  cip : Option String := none
  credential_level : Option Int := none
  region_id : Option Int := none
  max_net_price : Option ℚ := none
  top_k : Nat := 15
  deriving DecidableEq, Repr

/-- Python truthiness of an optional string: `None` and `""` are falsy. -/
def pythonTruthyStr : Option String → Bool
  | none => false
  | some s => !s.isEmpty

/-- Python truthiness of an optional int: `None` and `0` are falsy. -/
def pythonTruthyInt : Option Int → Bool
  | none => false
  | some n => n != 0

/-- Minimum of the nonempty list `v :: vs` (pandas `Series.min` over the
non-missing values). -/
def listMin (v : ℚ) (vs : List ℚ) : ℚ := vs.foldl min v

/-- Maximum of the nonempty list `v :: vs` (pandas `Series.max`). -/
def listMax (v : ℚ) (vs : List ℚ) : ℚ := vs.foldl max v

/-- The value `_min_max` assigns to a cell `x` of the column `l`.
Source (`ProgramDecisionEngine._min_max`): drop missing values; if none are
left every row gets 0.5; `math.isclose(span, 0.0, rel_tol=1e-9)` holds iff
`span == 0.0` exactly (the tolerance is relative to a zero reference), and
then every row gets 0.5; otherwise scale `(x - min) / span` and fill the
missing cells with 0.5 after scaling. -/
def minMaxAt (l : List (Option ℚ)) (x : Option ℚ) : ℚ :=
  match l.filterMap id with
  | [] => 1/2
  | v :: vs =>
    if listMax v vs - listMin v vs = 0 then 1/2
    else
      match x with
      | none => 1/2
      | some y => (y - listMin v vs) / (listMax v vs - listMin v vs)

/-- `ProgramDecisionEngine._min_max` as a column-to-column function.  An empty
series is returned unchanged (the source's early return). -/
def minMax (l : List (Option ℚ)) : List ℚ := l.map (minMaxAt l)

/-- Insert into an ascending-sorted list of rationals. -/
def insertAsc (x : ℚ) : List ℚ → List ℚ
  | [] => [x]
  | y :: ys => if x ≤ y then x :: y :: ys else y :: insertAsc x ys

/-- Ascending insertion sort on rationals (used only to take medians). -/
def sortAsc : List ℚ → List ℚ
  | [] => []
  | x :: xs => insertAsc x (sortAsc xs)

/-- pandas `Series.median` over an already missing-free list: middle element
of the sorted list, or the mean of the two middle elements for even length. -/
def medianQ (l : List ℚ) : ℚ :=
  let s := sortAsc l
  if s.length % 2 = 1 then s.getD (s.length / 2) 0
  else (s.getD (s.length / 2 - 1) 0 + s.getD (s.length / 2) 0) / 2

/-- The fallback chain of `_resolve_net_price` for one row:
`avg_net_price`, else `latest.cost.avg_net_price.public`, else
`latest.cost.avg_net_price.private` (the source's successive `fillna`s). -/
def netPriceBase (r : Row) : Option ℚ :=
  r.avg_net_price <|> r.net_price_public <|> r.net_price_private

/-- The median `_resolve_net_price` uses to fill rows whose whole chain is
missing: the median of the already-resolved values of the current subset,
or 0.0 when that median is taken over no values (`math.isnan` guard). -/
def netPriceMedian (rows : List Row) : ℚ :=
  let resolved := rows.filterMap netPriceBase
  if resolved.isEmpty then 0 else medianQ resolved

/-- Resolved net price of row `r` within subset `rows`. -/
def netPriceAt (rows : List Row) (r : Row) : ℚ :=
  (netPriceBase r).getD (netPriceMedian rows)

/-- `ProgramDecisionEngine._resolve_net_price` as a column. -/
def resolveNetPrice (rows : List Row) : List ℚ :=
  rows.map (netPriceAt rows)

/-- `latest.cost.tuition.in_state` filled from `latest.cost.tuition.out_of_state`
(the `resolved_tuition` column; may remain missing). -/
def tuitionResolved (r : Row) : Option ℚ :=
  r.tuition_in_state <|> r.tuition_out_of_state

/-- `groupby(["program_code", "school.region_id"]).transform("count")`:
rows whose region is missing are dropped from every group (pandas groupby
default), so their transformed cell is missing; otherwise the cell is the
size of the row's `(program_code, region_id)` group within the subset. -/
def densityAt (rows : List Row) (r : Row) : Option ℚ :=
  match r.region_id with
  | none => none
  | some reg =>
    some (((rows.filter
      (fun s => s.program_code == r.program_code && s.region_id == some reg)).length : ℚ))

/-- A row of the augmented frame `_build_feature_space` returns: the original
columns (`base`) plus every derived column the engine writes. -/
structure ScoredRow where
  base : Row
  resolved_tuition : Option ℚ
  avg_net_price_resolved : ℚ
  scholarship_volatility : ℚ
  region_program_density : Option ℚ
  program_supply_gap : ℚ
  net_price_norm : ℚ
  tuition_norm : ℚ
  aid_strength_score : ℚ
  affordability_score : ℚ
  scale_preference_score : ℚ
  supply_gap_score : ℚ
  housing_penalty : ℚ
  program_opportunity_score : ℚ
  deriving DecidableEq, Repr

/-- `df["latest.aid.pell_grant_rate"].mean()` with the `math.isnan` guard:
mean of the non-missing Pell rates of the subset, 0.0 when all are missing. -/
def pellMeanOf (rows : List Row) : ℚ :=
  let vals := rows.filterMap Row.pell_grant_rate
  if vals.isEmpty then 0 else vals.sum / (vals.length : ℚ)

/-- `df["latest.aid.federal_loan_rate"].mean()` with the `math.isnan` guard. -/
def loanMeanOf (rows : List Row) : ℚ :=
  let vals := rows.filterMap Row.federal_loan_rate
  if vals.isEmpty then 0 else vals.sum / (vals.length : ℚ)

/-- The `loan` column: federal loan rate filled with the subset mean. -/
def loanFilled (rows : List Row) (r : Row) : ℚ :=
  (r.federal_loan_rate).getD (loanMeanOf rows)

/-- `df["latest.student.size"].median()` with the `math.isnan` guard. -/
def studentMedianOf (rows : List Row) : ℚ :=
  let vals := rows.filterMap Row.student_size
  if vals.isEmpty then 0 else medianQ vals

/-- The `student_size` column filled with the subset median. -/
def studentFilled (rows : List Row) (r : Row) : ℚ :=
  (r.student_size).getD (studentMedianOf rows)

/-- The derived columns of `_build_feature_space`, evaluated at row `r` of the
subset `rows`.  Every pandas column assignment in the source is an elementwise
function of the row and whole-column statistics of `rows`; the statistics
(means, medians, min-max spans, group counts) are taken over `rows` exactly as
the source takes them over `df`. -/
def scoreRow (rows : List Row) (r : Row) : ScoredRow :=
  let npn := minMaxAt ((resolveNetPrice rows).map some) (some (netPriceAt rows r))
  let tn := minMaxAt (rows.map tuitionResolved) (tuitionResolved r)
  let sv := (r.scholarship_volatility).getD 0
  let psg := 1 - minMaxAt (rows.map (densityAt rows)) (densityAt rows r)
  let pell := (r.pell_grant_rate).getD (pellMeanOf rows)
  let loanNorm := minMaxAt (rows.map (fun s => some (loanFilled rows s)))
    (some (loanFilled rows r))
  let aid := 0.6 * pell + 0.4 * (1 - loanNorm)
  let afford := 0.5 * (1 - npn) + 0.2 * sv + 0.3 * (1 - tn)
  let spref := 1 - minMaxAt (rows.map (fun s => some (studentFilled rows s)))
    (some (studentFilled rows r))
  let sgs := 0.7 * psg + 0.3 * spref
  let pen : ℚ := if r.housing_discrepancy_flag then 0.1 else 0
  { base := r
    resolved_tuition := tuitionResolved r
    avg_net_price_resolved := netPriceAt rows r
    scholarship_volatility := sv
    region_program_density := densityAt rows r
    program_supply_gap := psg
    net_price_norm := npn
    tuition_norm := tn
    aid_strength_score := aid
    affordability_score := afford
    scale_preference_score := spref
    supply_gap_score := sgs
    housing_penalty := pen
    program_opportunity_score := 0.45 * afford + 0.30 * aid + 0.25 * sgs - pen }

/-- `ProgramDecisionEngine._build_feature_space` on the subset `rows`
(the source first copies the frame, then assigns the derived columns). -/
def buildFeatureSpace (rows : List Row) : List ScoredRow :=
  rows.map (scoreRow rows)

/-- `ProgramDecisionEngine._apply_filters`: four sequential, conjunctive
filters.  The CIP / credential / region filters are guarded by Python
truthiness of the filter value; the net-price ceiling is guarded by
`is not None` and compares the net price resolved over the subset that
survived the first three filters. -/
def applyFilters (rows : List Row) (f : ProgramFilters) : List Row :=
  let d1 := if pythonTruthyStr f.cip then
      rows.filter (fun r => (f.cip.getD "").isPrefixOf r.program_code)
    else rows
  let d2 := if pythonTruthyInt f.credential_level then
      d1.filter (fun r => r.program_credential_level == f.credential_level.getD 0)
    else d1
  let d3 := if pythonTruthyInt f.region_id then
      d2.filter (fun r => r.region_id == f.region_id)
    else d2
  match f.max_net_price with
  | none => d3
  | some m => d3.filter (fun r => netPriceAt d3 r ≤ m)

/-- The first three filter stages of `_apply_filters` (CIP prefix string,
credential level, region), without the net-price ceiling. -/
def threeFilters (rows : List Row) (f : ProgramFilters) : List Row :=
  let d1 := if pythonTruthyStr f.cip then
      rows.filter (fun r => (f.cip.getD "").isPrefixOf r.program_code)
    else rows
  let d2 := if pythonTruthyInt f.credential_level then
      d1.filter (fun r => r.program_credential_level == f.credential_level.getD 0)
    else d1
  if pythonTruthyInt f.region_id then
    d2.filter (fun r => r.region_id == f.region_id)
  else d2

/-- The net-price ceiling stage of `_apply_filters`: net price is resolved
over the incoming subset (so the resolution median sees every row of it) and
rows strictly above the ceiling are removed. -/
def priceFilterStage (rows : List Row) (f : ProgramFilters) : List Row :=
  match f.max_net_price with
  | none => rows
  | some m => rows.filter (fun r => netPriceAt rows r ≤ m)

/-- Stable insertion of a scored row into a list sorted by opportunity score
descending: the new, originally-earlier row goes before every later row whose
score does not exceed it. -/
def insertDescBy (x : ScoredRow) : List ScoredRow → List ScoredRow
  | [] => [x]
  | y :: ys =>
    if y.program_opportunity_score ≤ x.program_opportunity_score then x :: y :: ys
    else y :: insertDescBy x ys

/-- `df.sort_values("program_opportunity_score", ascending=False)` modelled as
a stable descending sort (exact for the regime where numpy's default argsort
is its stable insertion sort; see the file header). -/
def sortDesc : List ScoredRow → List ScoredRow
  | [] => []
  | x :: xs => insertDescBy x (sortDesc xs)

/-- `ProgramDecisionEngine.rank_programs`: filter, return the empty frame
early if nothing survived, otherwise build features, sort by opportunity
score descending and keep the first `top_k` rows. -/
def rankPrograms (rows : List Row) (f : ProgramFilters) : List ScoredRow :=
  let df := applyFilters rows f
  if df.isEmpty then []
  else (sortDesc (buildFeatureSpace df)).take f.top_k

/-- The engine object: its only state the ranking path touches is the loaded
program frame `_programs`. -/
structure ProgramDecisionEngine where
  programs : List Row
  deriving DecidableEq, Repr

/-- `rank_programs` as a state-passing method: the source copies
`self._programs` and never reassigns it, so the returned engine state is
rebuilt from the same frame. -/
def ProgramDecisionEngine.rank (e : ProgramDecisionEngine) (f : ProgramFilters) :
    ProgramDecisionEngine × List ScoredRow :=
  ({ programs := e.programs }, rankPrograms e.programs f)

/-- Pipeline in the order claim C2 / the spec state machine describe:
CIP/credential/region filters, then features built on that subset, then the
net-price ceiling on the already-resolved net price, then sort and slice
(the per-row weighted score combination commutes with the row filter, so
building scores before the ceiling is the same frame the claim describes).
Written from the claim's words, for comparison with `rankPrograms`. -/
def specOrderRank (rows : List Row) (f : ProgramFilters) : List ScoredRow :=
  let d3 := threeFilters rows f
  let fs := buildFeatureSpace d3
  let fs2 := match f.max_net_price with
    | none => fs
    | some m => fs.filter (fun r => r.avg_net_price_resolved ≤ m)
  (sortDesc fs2).take f.top_k

/-- `calculate_derived_metrics` (ETL): the combined `avg_net_price` column is
`latest.cost.avg_net_price.public` filled from `.private`. -/
def etlAvgNetPrice (pub priv : Option ℚ) : Option ℚ := pub <|> priv

/-- `calculate_derived_metrics` (ETL): scholarship volatility is
`(latest.cost.tuition.in_state - avg_net_price) / latest.cost.tuition.in_state`
with the ±infinity produced by a zero denominator replaced by 0 and the NaN
produced by a missing input (or 0/0) filled with 0. -/
def etlScholarshipVolatility (tuition avgNet : Option ℚ) : ℚ :=
  match tuition, avgNet with
  | some t, some np => if t = 0 then 0 else (t - np) / t
  | _, _ => 0

/-- The volatility formula claim C5 states, written from the claim's words:
`(resolved_tuition - avg_net_price_resolved) / resolved_tuition` with
division-by-zero/±infinity and missing-input NaN clipped to 0.0.  For
comparison with what the code stores. -/
def specScholarshipVolatility (resolvedTuition : Option ℚ) (netResolved : ℚ) : ℚ :=
  match resolvedTuition with
  | none => 0
  | some t => if t = 0 then 0 else (t - netResolved) / t

/-- A program row with every nullable cell missing, used to build the concrete
test tables below. -/
def mkRow (code : String) (cred : Int) (reg : Option Int) : Row :=
  { program_code := code, program_credential_level := cred, region_id := reg,
    tuition_in_state := none, tuition_out_of_state := none, avg_net_price := none,
    net_price_public := none, net_price_private := none, scholarship_volatility := none,
    housing_discrepancy_flag := false, pell_grant_rate := none, federal_loan_rate := none,
    student_size := none }

/-- ETL-consistent row whose net price (11000) far exceeds its in-state
tuition (1000), so the stored volatility is `(1000 - 11000) / 1000 = -10`. -/
def rowVolatileC1 : Row :=
  { mkRow "11.0701" 5 (some 1) with
    tuition_in_state := some 1000, avg_net_price := some 11000,
    net_price_public := some 11000, scholarship_volatility := some (-10) }

/-- ETL-consistent row with every aid/cost signal present and in range. -/
def rowBalancedW : Row :=
  { mkRow "11.0701" 5 (some 1) with
    tuition_in_state := some 10000, avg_net_price := some 10000,
    net_price_public := some 10000, scholarship_volatility := some (1/2),
    pell_grant_rate := some (1/2), federal_loan_rate := some (1/2),
    student_size := some 5000 }

/-- The scored row the engine produces for `rowBalancedW` alone. -/
def scoredBalancedW : ScoredRow := scoreRow [rowBalancedW] rowBalancedW

/-- Net price 10000 — below the 20000 ceiling used for the C2 experiment. -/
def rowCheapC2 : Row :=
  { mkRow "11.0701" 5 (some 1) with
    tuition_in_state := some 10000, avg_net_price := some 10000,
    net_price_public := some 10000, scholarship_volatility := some 0 }

/-- Net price 50000 — above the 20000 ceiling used for the C2 experiment. -/
def rowCostlyC2 : Row :=
  { mkRow "11.0701" 5 (some 1) with
    tuition_in_state := some 50000, avg_net_price := some 50000,
    net_price_public := some 50000, scholarship_volatility := some 0 }

/-- A row carrying the out-of-domain credential level 99. -/
def rowCred99C4 : Row := mkRow "11.0701" 99 (some 1)

/-- Row whose in-state tuition is missing but whose out-of-state tuition and
public net price are present: the ETL volatility is 0 (missing input) while
the formula claim C5 states would give `(20000 - 10000) / 20000 = 1/2`. -/
def rowFallbackC5 : Row :=
  { mkRow "11.0701" 5 (some 1) with
    tuition_out_of_state := some 20000, avg_net_price := some 10000,
    net_price_public := some 10000, scholarship_volatility := some 0 }

/-- The scored row the engine produces for `rowFallbackC5` alone. -/
def scoredFallbackC5 : ScoredRow := scoreRow [rowFallbackC5] rowFallbackC5

/-- Three rows of the same `(program_code, region_id)` group... -/
def rowDenseA : Row := mkRow "11.0701" 5 (some 1)

/-- ...distinguished only by tuition so the rows stay distinct... -/
def rowDenseB : Row := { mkRow "11.0701" 5 (some 1) with tuition_in_state := some 1 }

/-- ...(third member of the dense group)... -/
def rowDenseC : Row := { mkRow "11.0701" 5 (some 1) with tuition_in_state := some 2 }

/-- ...and a row alone in its `(program_code, region_id)` group: same CIP code,
but offered in a different region. -/
def rowLoneC6 : Row := mkRow "11.0701" 5 (some 2)

/-- A row whose whole net-price fallback chain is missing. -/
def rowAllMissingC8 : Row := mkRow "11.0701" 5 (some 1)

/-! ## Helper lemmas -/

theorem mem_of_mem_ite_filter {l : List Row} {c : Bool} {p : Row → Bool} {r : Row}
    (h : r ∈ if c then l.filter p else l) : r ∈ l := by
  split at h
  · exact List.mem_of_mem_filter h
  · exact h

theorem foldl_min_le_init : ∀ (vs : List ℚ) (v : ℚ), vs.foldl min v ≤ v
  | [], v => le_refl v
  | w :: ws, v => le_trans (foldl_min_le_init ws (min v w)) (min_le_left v w)

theorem foldl_min_le_mem : ∀ (vs : List ℚ) (v y : ℚ), y ∈ vs → vs.foldl min v ≤ y
  | w :: ws, v, y, hy => by
    rcases List.mem_cons.1 hy with h | h
    · subst h
      exact le_trans (foldl_min_le_init ws (min v y)) (min_le_right v y)
    · exact foldl_min_le_mem ws (min v w) y h

theorem le_foldl_min : ∀ (vs : List ℚ) (v c : ℚ), (∀ y ∈ vs, c ≤ y) → c ≤ v →
    c ≤ vs.foldl min v
  | [], _, _, _, hv => hv
  | w :: ws, v, c, hw, hv =>
    le_foldl_min ws (min v w) c (fun y hy => hw y (List.mem_cons_of_mem _ hy))
      (le_min hv (hw w (List.mem_cons_self _ _)))

theorem foldl_max_le_init : ∀ (vs : List ℚ) (v : ℚ), v ≤ vs.foldl max v
  | [], v => le_refl v
  | w :: ws, v => le_trans (le_max_left v w) (foldl_max_le_init ws (max v w))

theorem foldl_max_le_mem : ∀ (vs : List ℚ) (v y : ℚ), y ∈ vs → y ≤ vs.foldl max v
  | w :: ws, v, y, hy => by
    rcases List.mem_cons.1 hy with h | h
    · subst h
      exact le_trans (le_max_right v y) (foldl_max_le_init ws (max v y))
    · exact foldl_max_le_mem ws (max v w) y h

theorem foldl_max_le : ∀ (vs : List ℚ) (v c : ℚ), (∀ y ∈ vs, y ≤ c) → v ≤ c →
    vs.foldl max v ≤ c
  | [], _, _, _, hv => hv
  | w :: ws, v, c, hw, hv =>
    foldl_max_le ws (max v w) c (fun y hy => hw y (List.mem_cons_of_mem _ hy))
      (max_le hv (hw w (List.mem_cons_self _ _)))

theorem listMin_le (v : ℚ) (vs : List ℚ) : ∀ y ∈ v :: vs, listMin v vs ≤ y := by
  intro y hy
  rcases List.mem_cons.1 hy with h | h
  · exact h ▸ foldl_min_le_init vs v
  · exact foldl_min_le_mem vs v y h

theorem le_listMax (v : ℚ) (vs : List ℚ) : ∀ y ∈ v :: vs, y ≤ listMax v vs := by
  intro y hy
  rcases List.mem_cons.1 hy with h | h
  · exact h ▸ foldl_max_le_init vs v
  · exact foldl_max_le_mem vs v y h

theorem minMaxAt_bounds (l : List (Option ℚ)) (x : Option ℚ) (hx : x ∈ l) :
    0 ≤ minMaxAt l x ∧ minMaxAt l x ≤ 1 := by
  unfold minMaxAt
  split
  · norm_num
  · next v vs heq =>
    have hv : v ∈ v :: vs := List.mem_cons_self _ _
    have hmn : listMin v vs ≤ v := listMin_le v vs v hv
    have hmx : v ≤ listMax v vs := le_listMax v vs v hv
    split
    · norm_num
    · next hspan =>
      have hpos : 0 < listMax v vs - listMin v vs := by
        rcases lt_or_eq_of_le (by linarith : (0 : ℚ) ≤ listMax v vs - listMin v vs) with h | h
        · exact h
        · exact absurd h.symm hspan
      split
      · norm_num
      · next y =>
        have hy : y ∈ v :: vs := by
          have : y ∈ l.filterMap id := List.mem_filterMap.mpr ⟨some y, hx, rfl⟩
          rwa [heq] at this
        have h1 : listMin v vs ≤ y := listMin_le v vs y hy
        have h2 : y ≤ listMax v vs := le_listMax v vs y hy
        constructor
        · exact div_nonneg (by linarith) (le_of_lt hpos)
        · rw [div_le_one hpos]
          linarith

theorem minMaxAt_eq_half_of_valid_all_eq (l : List (Option ℚ)) (x : Option ℚ)
    (h : ∀ a ∈ l.filterMap id, ∀ b ∈ l.filterMap id, a = b) :
    minMaxAt l x = 1/2 := by
  unfold minMaxAt
  split
  · rfl
  · next v vs heq =>
    have hall : ∀ y ∈ vs, y = v := by
      intro y hy
      have h1 : y ∈ l.filterMap id := heq ▸ List.mem_cons_of_mem _ hy
      have h2 : v ∈ l.filterMap id := heq ▸ List.mem_cons_self _ _
      exact h y h1 v h2
    have hminv : v ≤ listMin v vs :=
      le_foldl_min vs v v (fun y hy => le_of_eq (hall y hy).symm) (le_refl v)
    have hmaxv : listMax v vs ≤ v :=
      foldl_max_le vs v v (fun y hy => le_of_eq (hall y hy)) (le_refl v)
    have hmn : listMin v vs ≤ v := foldl_min_le_init vs v
    have hmx : v ≤ listMax v vs := foldl_max_le_init vs v
    have hspan : listMax v vs - listMin v vs = 0 := by linarith
    rw [if_pos hspan]

theorem mem_insertDescBy {a x : ScoredRow} {l : List ScoredRow}
    (h : a ∈ insertDescBy x l) : a = x ∨ a ∈ l := by
  induction l with
  | nil => simp [insertDescBy] at h; exact Or.inl h
  | cons y ys ih =>
    unfold insertDescBy at h
    split at h
    · rcases List.mem_cons.1 h with h1 | h1
      · exact Or.inl h1
      · exact Or.inr h1
    · rcases List.mem_cons.1 h with h1 | h1
      · exact Or.inr (h1 ▸ List.mem_cons_self _ _)
      · rcases ih h1 with h2 | h2
        · exact Or.inl h2
        · exact Or.inr (List.mem_cons_of_mem _ h2)

theorem mem_sortDesc {a : ScoredRow} {l : List ScoredRow} (h : a ∈ sortDesc l) : a ∈ l := by
  induction l with
  | nil => simp [sortDesc] at h
  | cons x xs ih =>
    unfold sortDesc at h
    rcases mem_insertDescBy h with h1 | h1
    · exact h1 ▸ List.mem_cons_self _ _
    · exact List.mem_cons_of_mem _ (ih h1)

theorem applyFilters_eq_stages (rows : List Row) (f : ProgramFilters) :
    applyFilters rows f = priceFilterStage (threeFilters rows f) f := rfl

theorem threeFilters_subset (rows : List Row) (f : ProgramFilters) :
    ∀ r, r ∈ threeFilters rows f → r ∈ rows := by
  intro r hr
  unfold threeFilters at hr
  exact mem_of_mem_ite_filter (mem_of_mem_ite_filter (mem_of_mem_ite_filter hr))

theorem priceFilterStage_subset (rows : List Row) (f : ProgramFilters) :
    ∀ r, r ∈ priceFilterStage rows f → r ∈ rows := by
  intro r hr
  unfold priceFilterStage at hr
  split at hr
  · exact hr
  · exact List.mem_of_mem_filter hr

theorem applyFilters_subset (rows : List Row) (f : ProgramFilters) :
    ∀ r, r ∈ applyFilters rows f → r ∈ rows := by
  intro r hr
  rw [applyFilters_eq_stages] at hr
  exact threeFilters_subset rows f r (priceFilterStage_subset _ f r hr)

theorem mem_rankPrograms {rows : List Row} {f : ProgramFilters} {r : ScoredRow}
    (hr : r ∈ rankPrograms rows f) :
    ∃ r0, r0 ∈ applyFilters rows f ∧ r = scoreRow (applyFilters rows f) r0 := by
  simp only [rankPrograms] at hr
  split at hr
  · simp at hr
  · have h1 : r ∈ sortDesc (buildFeatureSpace (applyFilters rows f)) :=
      List.take_subset _ _ hr
    have h2 : r ∈ buildFeatureSpace (applyFilters rows f) := mem_sortDesc h1
    unfold buildFeatureSpace at h2
    obtain ⟨r0, hr0, hval⟩ := List.mem_map.1 h2
    exact ⟨r0, hr0, hval.symm⟩

theorem list_sum_nonneg_of_mem (l : List ℚ) (h : ∀ x ∈ l, 0 ≤ x) : 0 ≤ l.sum := by
  induction l with
  | nil => simp
  | cons x xs ih =>
    simp only [List.sum_cons]
    have h1 := h x (List.mem_cons_self _ _)
    have h2 := ih (fun y hy => h y (List.mem_cons_of_mem _ hy))
    linarith

theorem list_sum_le_length (l : List ℚ) (h : ∀ x ∈ l, x ≤ 1) : l.sum ≤ (l.length : ℚ) := by
  induction l with
  | nil => simp
  | cons x xs ih =>
    simp only [List.sum_cons, List.length_cons]
    have h1 := h x (List.mem_cons_self _ _)
    have h2 := ih (fun y hy => h y (List.mem_cons_of_mem _ hy))
    push_cast
    linarith

theorem meanFill_bounds (vals : List ℚ) (o : Option ℚ)
    (hvals : ∀ v ∈ vals, 0 ≤ v ∧ v ≤ 1)
    (ho : 0 ≤ o.getD 0 ∧ o.getD 0 ≤ 1) :
    0 ≤ o.getD (if vals.isEmpty then 0 else vals.sum / (vals.length : ℚ)) ∧
      o.getD (if vals.isEmpty then 0 else vals.sum / (vals.length : ℚ)) ≤ 1 := by
  have hmean : 0 ≤ (if vals.isEmpty then 0 else vals.sum / (vals.length : ℚ)) ∧
      (if vals.isEmpty then 0 else vals.sum / (vals.length : ℚ)) ≤ 1 := by
    split
    · norm_num
    · next hne =>
      have hlen : 0 < vals.length := by
        cases vals with
        | nil => simp at hne
        | cons a as => simp
      have hlenq : (0 : ℚ) < (vals.length : ℚ) := by exact_mod_cast hlen
      constructor
      · exact div_nonneg (list_sum_nonneg_of_mem vals fun x hx => (hvals x hx).1)
          (le_of_lt hlenq)
      · rw [div_le_one hlenq]
        exact list_sum_le_length vals fun x hx => (hvals x hx).2
  cases o with
  | none => simpa using hmean
  | some v => simpa using ho

theorem minMaxAt_none (l : List (Option ℚ)) : minMaxAt l none = 1/2 := by
  unfold minMaxAt
  split
  · rfl
  · split <;> rfl

theorem minMaxAt_some_eq (l : List (Option ℚ)) (v : ℚ) (vs : List ℚ)
    (heq : l.filterMap id = v :: vs) (hspan : listMax v vs - listMin v vs ≠ 0) (y : ℚ) :
    minMaxAt l (some y) = (y - listMin v vs) / (listMax v vs - listMin v vs) := by
  unfold minMaxAt
  split
  · next h0 => simp [heq] at h0
  · next v' vs' h1 =>
    rw [heq] at h1
    injection h1 with hv hvs
    subst hv
    subst hvs
    rw [if_neg hspan]

theorem mean_bounds_vals (vals : List ℚ) (hvals : ∀ v ∈ vals, 0 ≤ v ∧ v ≤ 1) :
    0 ≤ (if vals.isEmpty then 0 else vals.sum / (vals.length : ℚ)) ∧
      (if vals.isEmpty then 0 else vals.sum / (vals.length : ℚ)) ≤ 1 := by
  split
  · norm_num
  · next hne =>
    have hlen : 0 < vals.length := by
      cases vals with
      | nil => simp at hne
      | cons a as => simp
    have hlenq : (0 : ℚ) < (vals.length : ℚ) := by exact_mod_cast hlen
    constructor
    · exact div_nonneg (list_sum_nonneg_of_mem vals fun x hx => (hvals x hx).1)
        (le_of_lt hlenq)
    · rw [div_le_one hlenq]
      exact list_sum_le_length vals fun x hx => (hvals x hx).2

theorem getD_bounds (o : Option ℚ) (m : ℚ) (ho : 0 ≤ o.getD 0 ∧ o.getD 0 ≤ 1)
    (hm : 0 ≤ m ∧ m ≤ 1) : 0 ≤ o.getD m ∧ o.getD m ≤ 1 := by
  cases o with
  | none => simpa using hm
  | some v => simpa using ho

theorem scoreRow_base (rows : List Row) (r : Row) : (scoreRow rows r).base = r := rfl

theorem scoreRow_net_price_norm (rows : List Row) (r : Row) :
    (scoreRow rows r).net_price_norm =
      minMaxAt ((resolveNetPrice rows).map some) (some (netPriceAt rows r)) := rfl

theorem scoreRow_tuition_norm (rows : List Row) (r : Row) :
    (scoreRow rows r).tuition_norm =
      minMaxAt (rows.map tuitionResolved) (tuitionResolved r) := rfl

theorem scoreRow_volatility (rows : List Row) (r : Row) :
    (scoreRow rows r).scholarship_volatility = (r.scholarship_volatility).getD 0 := rfl

theorem scoreRow_supply_gap (rows : List Row) (r : Row) :
    (scoreRow rows r).program_supply_gap =
      1 - minMaxAt (rows.map (densityAt rows)) (densityAt rows r) := rfl

theorem scoreRow_aid (rows : List Row) (r : Row) :
    (scoreRow rows r).aid_strength_score =
      0.6 * ((r.pell_grant_rate).getD (pellMeanOf rows)) +
        0.4 * (1 - minMaxAt (rows.map (fun s => some (loanFilled rows s)))
          (some (loanFilled rows r))) := rfl

theorem scoreRow_afford (rows : List Row) (r : Row) :
    (scoreRow rows r).affordability_score =
      0.5 * (1 - minMaxAt ((resolveNetPrice rows).map some) (some (netPriceAt rows r))) +
        0.2 * ((r.scholarship_volatility).getD 0) +
        0.3 * (1 - minMaxAt (rows.map tuitionResolved) (tuitionResolved r)) := rfl

theorem scoreRow_spref (rows : List Row) (r : Row) :
    (scoreRow rows r).scale_preference_score =
      1 - minMaxAt (rows.map (fun s => some (studentFilled rows s)))
        (some (studentFilled rows r)) := rfl

theorem scoreRow_sgs (rows : List Row) (r : Row) :
    (scoreRow rows r).supply_gap_score =
      0.7 * (scoreRow rows r).program_supply_gap +
        0.3 * (scoreRow rows r).scale_preference_score := rfl

theorem scoreRow_penalty (rows : List Row) (r : Row) :
    (scoreRow rows r).housing_penalty =
      (if r.housing_discrepancy_flag then (0.1 : ℚ) else 0) := rfl

theorem scoreRow_opportunity (rows : List Row) (r : Row) :
    (scoreRow rows r).program_opportunity_score =
      0.45 * (scoreRow rows r).affordability_score +
        0.30 * (scoreRow rows r).aid_strength_score +
        0.25 * (scoreRow rows r).supply_gap_score -
        (scoreRow rows r).housing_penalty := rfl

/-! ## Claim theorems -/

/-- C1 (amended): for every row of a ranking result, `net_price_norm`,
`tuition_norm`, `scale_preference_score` and `supply_gap_score` lie in [0,1];
given the documented input schema (Pell rates in [0,1]) so does
`aid_strength_score`; and given additionally that every stored
`scholarship_volatility` lies in [0,1] — which the ETL formula does NOT
guarantee — `affordability_score` lies in [0,1] and
`program_opportunity_score` lies in [-0.1, 1.0]. -/
theorem score_field_ranges (rows : List Row) (f : ProgramFilters) (r : ScoredRow)
    (hr : r ∈ rankPrograms rows f)
    (hpell : ∀ s ∈ rows, 0 ≤ (s.pell_grant_rate).getD 0 ∧ (s.pell_grant_rate).getD 0 ≤ 1)
    (hsv : ∀ s ∈ rows, 0 ≤ (s.scholarship_volatility).getD 0 ∧
        (s.scholarship_volatility).getD 0 ≤ 1) :
    (0 ≤ r.net_price_norm ∧ r.net_price_norm ≤ 1) ∧
    (0 ≤ r.tuition_norm ∧ r.tuition_norm ≤ 1) ∧
    (0 ≤ r.aid_strength_score ∧ r.aid_strength_score ≤ 1) ∧
    (0 ≤ r.affordability_score ∧ r.affordability_score ≤ 1) ∧
    (0 ≤ r.scale_preference_score ∧ r.scale_preference_score ≤ 1) ∧
    (0 ≤ r.supply_gap_score ∧ r.supply_gap_score ≤ 1) ∧
    (-(1/10) ≤ r.program_opportunity_score ∧ r.program_opportunity_score ≤ 1) := by
  obtain ⟨r0, hr0, rfl⟩ := mem_rankPrograms hr
  have hsub := applyFilters_subset rows f
  have h0 : r0 ∈ rows := hsub r0 hr0
  have hnpn := minMaxAt_bounds ((resolveNetPrice (applyFilters rows f)).map some)
    (some (netPriceAt (applyFilters rows f) r0))
    (by unfold resolveNetPrice
        exact List.mem_map_of_mem some (List.mem_map_of_mem (netPriceAt _) hr0))
  have htn := minMaxAt_bounds ((applyFilters rows f).map tuitionResolved)
    (tuitionResolved r0) (List.mem_map_of_mem tuitionResolved hr0)
  have hdens := minMaxAt_bounds
    ((applyFilters rows f).map (densityAt (applyFilters rows f)))
    (densityAt (applyFilters rows f) r0) (List.mem_map_of_mem _ hr0)
  have hloan := minMaxAt_bounds
    ((applyFilters rows f).map (fun s => some (loanFilled (applyFilters rows f) s)))
    (some (loanFilled (applyFilters rows f) r0)) (List.mem_map_of_mem _ hr0)
  have hstud := minMaxAt_bounds
    ((applyFilters rows f).map (fun s => some (studentFilled (applyFilters rows f) s)))
    (some (studentFilled (applyFilters rows f) r0)) (List.mem_map_of_mem _ hr0)
  have hpellb : 0 ≤ (r0.pell_grant_rate).getD (pellMeanOf (applyFilters rows f)) ∧
      (r0.pell_grant_rate).getD (pellMeanOf (applyFilters rows f)) ≤ 1 := by
    refine getD_bounds _ _ (hpell r0 h0) ?_
    have hvals : ∀ v ∈ (applyFilters rows f).filterMap Row.pell_grant_rate,
        0 ≤ v ∧ v ≤ 1 := by
      intro v hv
      obtain ⟨s, hs, he⟩ := List.mem_filterMap.1 hv
      have hb := hpell s (hsub s hs)
      rw [he] at hb
      simpa using hb
    exact mean_bounds_vals _ hvals
  have hsvr := hsv r0 h0
  have hpen : 0 ≤ (if r0.housing_discrepancy_flag then (0.1 : ℚ) else 0) ∧
      (if r0.housing_discrepancy_flag then (0.1 : ℚ) else 0) ≤ 1/10 := by
    split <;> norm_num
  rw [scoreRow_net_price_norm, scoreRow_tuition_norm, scoreRow_opportunity,
    scoreRow_sgs, scoreRow_aid, scoreRow_afford, scoreRow_spref,
    scoreRow_supply_gap, scoreRow_penalty]
  refine ⟨⟨?_, ?_⟩, ⟨?_, ?_⟩, ⟨?_, ?_⟩, ⟨?_, ?_⟩, ⟨?_, ?_⟩, ⟨?_, ?_⟩, ⟨?_, ?_⟩⟩ <;>
    linarith [hnpn.1, hnpn.2, htn.1, htn.2, hdens.1, hdens.2, hloan.1, hloan.2,
      hstud.1, hstud.2, hpellb.1, hpellb.2, hsvr.1, hsvr.2, hpen.1, hpen.2]

/-- C1 witness: the bounds instantiated at a concrete one-row corpus whose
Pell/loan rates and stored volatility satisfy the hypotheses. -/
theorem score_field_ranges_witness :
    (0 ≤ scoredBalancedW.net_price_norm ∧ scoredBalancedW.net_price_norm ≤ 1) ∧
    (0 ≤ scoredBalancedW.tuition_norm ∧ scoredBalancedW.tuition_norm ≤ 1) ∧
    (0 ≤ scoredBalancedW.aid_strength_score ∧ scoredBalancedW.aid_strength_score ≤ 1) ∧
    (0 ≤ scoredBalancedW.affordability_score ∧ scoredBalancedW.affordability_score ≤ 1) ∧
    (0 ≤ scoredBalancedW.scale_preference_score ∧
      scoredBalancedW.scale_preference_score ≤ 1) ∧
    (0 ≤ scoredBalancedW.supply_gap_score ∧ scoredBalancedW.supply_gap_score ≤ 1) ∧
    (-(1/10) ≤ scoredBalancedW.program_opportunity_score ∧
      scoredBalancedW.program_opportunity_score ≤ 1) :=
  score_field_ranges [rowBalancedW] {} scoredBalancedW
    (by simp [rankPrograms, applyFilters, pythonTruthyStr, pythonTruthyInt,
          buildFeatureSpace, sortDesc, insertDescBy, scoredBalancedW])
    (by norm_num [rowBalancedW, mkRow])
    (by norm_num [rowBalancedW, mkRow])

/-- C1 counterexample: on an ETL-consistent row whose net price (11000) far
exceeds its in-state tuition (1000), the stored scholarship volatility is -10
and the engine returns `affordability_score = -8/5 < 0` and
`program_opportunity_score = -107/200 < -0.1`, so the claimed unconditional
ranges [0,1] and [-0.1,1.0] are violated. -/
theorem affordability_out_of_unit_interval :
    ((rankPrograms [rowVolatileC1] {}).map fun r =>
      (r.affordability_score, r.program_opportunity_score)) = [(-8/5, -107/200)] ∧
    ((-8 : ℚ)/5 < 0) ∧ ((-107 : ℚ)/200 < -(1/10)) := by
  refine ⟨?_, by norm_num, by norm_num⟩
  norm_num [rankPrograms, applyFilters, pythonTruthyStr, pythonTruthyInt, buildFeatureSpace,
    scoreRow, minMaxAt, listMin, listMax, netPriceAt, netPriceBase, netPriceMedian, medianQ,
    sortAsc, insertAsc, resolveNetPrice, tuitionResolved, densityAt, pellMeanOf, loanMeanOf,
    loanFilled, studentMedianOf, studentFilled, sortDesc, insertDescBy, rowVolatileC1, mkRow,
    List.filterMap_cons, List.filterMap_nil, id_eq, List.filter_cons, List.filter_nil]

/-- C2 (amended): the pipeline order is CIP/credential/region filters, then
net-price resolution over that subset and exclusion of rows above the ceiling,
then feature building (grouped statistics and normalizations computed over the
subset that already excludes the rows removed by the ceiling), then scoring,
sorting, top-K.  The net-price ceiling thus precedes feature building; only
the resolution median used by the ceiling comparison sees the removed rows. -/
theorem pipeline_stage_order (rows : List Row) (f : ProgramFilters) :
    rankPrograms rows f =
      (let priced := priceFilterStage (threeFilters rows f) f
       if priced.isEmpty then []
       else (sortDesc (buildFeatureSpace priced)).take f.top_k) ∧
    applyFilters rows f = priceFilterStage (threeFilters rows f) f :=
  ⟨rfl, rfl⟩

/-- C2 counterexample: with a 20000 ceiling over rows with net prices 10000
and 50000, the engine normalizes over the post-ceiling subset and returns
`net_price_norm = 1/2` for the surviving row, while the order the claim
states (features before the ceiling) would return 0. -/
theorem net_price_filter_precedes_feature_build :
    ((rankPrograms [rowCheapC2, rowCostlyC2] { max_net_price := some 20000 }).map
      fun r => r.net_price_norm) = [1/2] ∧
    ((specOrderRank [rowCheapC2, rowCostlyC2] { max_net_price := some 20000 }).map
      fun r => r.net_price_norm) = [0] ∧
    ((1 : ℚ)/2 ≠ 0) := by
  refine ⟨?_, ?_, by norm_num⟩ <;>
  norm_num [rankPrograms, specOrderRank, applyFilters, threeFilters, priceFilterStage,
    pythonTruthyStr, pythonTruthyInt, buildFeatureSpace,
    scoreRow, minMaxAt, listMin, listMax, netPriceAt, netPriceBase, netPriceMedian, medianQ,
    sortAsc, insertAsc, resolveNetPrice, tuitionResolved, densityAt, pellMeanOf, loanMeanOf,
    loanFilled, studentMedianOf, studentFilled, sortDesc, insertDescBy,
    rowCheapC2, rowCostlyC2, mkRow, max_def, min_def,
    List.filterMap_cons, List.filterMap_nil, id_eq, List.filter_cons, List.filter_nil]

/-- C4 (amended): no filter validation exists.  Any non-zero credential level
`c` — in the documented domain 1..7 or not — is passed straight to the
equality filter and the pipeline runs normally on whatever rows carry it. -/
theorem filters_pass_through_unvalidated (rows : List Row) (c : Int) (hc : c ≠ 0) :
    rankPrograms rows { credential_level := some c } =
      (let df := rows.filter (fun r => r.program_credential_level == c)
       if df.isEmpty then [] else (sortDesc (buildFeatureSpace df)).take 15) := by
  simp [rankPrograms, applyFilters, pythonTruthyStr, pythonTruthyInt, hc]

/-- C4 witness: the pass-through behavior instantiated at the out-of-domain
credential level 99. -/
theorem filters_pass_through_unvalidated_witness :
    rankPrograms [rowCred99C4] { credential_level := some 99 } =
      (sortDesc (buildFeatureSpace [rowCred99C4])).take 15 := by
  rw [filters_pass_through_unvalidated [rowCred99C4] 99 (by norm_num)]
  simp [rowCred99C4, mkRow]

/-- C4 counterexample: a request with the out-of-domain credential level 99 is
not rejected: the pipeline runs, silently matches the value against the data,
and returns the row that carries 99. -/
theorem out_of_domain_credential_silently_matched :
    ((rankPrograms [rowCred99C4] { credential_level := some 99 }).map
      fun r => r.base.program_credential_level) = [99] := by
  norm_num [rankPrograms, applyFilters, pythonTruthyStr, pythonTruthyInt,
    buildFeatureSpace, scoreRow, sortDesc, insertDescBy, rowCred99C4, mkRow]

/-- C5 (amended): the engine does not compute scholarship volatility from the
resolved fields; every scored row carries the stored (ETL-written) column with
missing values replaced by 0.0.  The ETL formula divides
`tuition_in_state - avg_net_price` by `tuition_in_state` (the combined
`avg_net_price` being public-else-private), clips the ±infinity of a zero
denominator and the NaN of a missing input to 0.0, and never raises:
`tuition_in_state = 0` yields 0.0. -/
theorem scholarship_volatility_source (rows : List Row) (f : ProgramFilters)
    (r : ScoredRow) (hr : r ∈ rankPrograms rows f) :
    r.scholarship_volatility = (r.base.scholarship_volatility).getD 0 ∧
    (∀ np, etlScholarshipVolatility (some 0) np = 0) ∧
    (∀ t np : ℚ, t ≠ 0 → etlScholarshipVolatility (some t) (some np) = (t - np) / t) ∧
    (∀ t, etlScholarshipVolatility t none = 0) ∧
    (∀ np, etlScholarshipVolatility none np = 0) ∧
    (∀ pub priv : Option ℚ, etlAvgNetPrice pub priv = (pub <|> priv)) := by
  obtain ⟨r0, hr0, rfl⟩ := mem_rankPrograms hr
  refine ⟨rfl, ?_, ?_, ?_, ?_, fun pub priv => rfl⟩
  · intro np
    cases np <;> simp [etlScholarshipVolatility]
  · intro t np ht
    simp [etlScholarshipVolatility, ht]
  · intro t
    cases t <;> simp [etlScholarshipVolatility]
  · intro np
    cases np <;> simp [etlScholarshipVolatility]

/-- C5 witness: the stored-column pass-through and the ETL clipping rules
instantiated at the concrete fallback row and concrete numbers. -/
theorem scholarship_volatility_source_witness :
    scoredFallbackC5.scholarship_volatility =
      (scoredFallbackC5.base.scholarship_volatility).getD 0 ∧
    etlScholarshipVolatility (some 0) (some 500) = 0 ∧
    etlScholarshipVolatility (some 4) (some 1) = 3/4 := by
  have h := scholarship_volatility_source [rowFallbackC5] {} scoredFallbackC5
    (by simp [rankPrograms, applyFilters, pythonTruthyStr, pythonTruthyInt,
          buildFeatureSpace, sortDesc, insertDescBy, scoredFallbackC5])
  refine ⟨h.1, h.2.1 (some 500), ?_⟩
  rw [h.2.2.1 4 1 (by norm_num)]
  norm_num

/-- C5 counterexample: for a row whose in-state tuition is missing but whose
out-of-state tuition (20000) and public net price (10000) are present, the
engine returns scholarship volatility 0 (the ETL value), while the claimed
formula over `resolved_tuition` and `avg_net_price_resolved` gives 1/2. -/
theorem volatility_formula_differs_from_claim :
    ((rankPrograms [rowFallbackC5] {}).map fun r =>
      (r.scholarship_volatility,
        specScholarshipVolatility r.resolved_tuition r.avg_net_price_resolved)) =
      [(0, 1/2)] ∧ ((0 : ℚ) ≠ 1/2) := by
  refine ⟨?_, by norm_num⟩
  norm_num [rankPrograms, applyFilters, pythonTruthyStr, pythonTruthyInt, buildFeatureSpace,
    scoreRow, specScholarshipVolatility, netPriceAt, netPriceBase, netPriceMedian, medianQ,
    sortAsc, insertAsc, tuitionResolved, sortDesc, insertDescBy, rowFallbackC5, mkRow,
    List.filterMap_cons, List.filterMap_nil, id_eq]

/-- C6 (amended): a row's min-max-normalized regional density is the neutral
0.5 exactly when the normalization degenerates — when every row of the subset
has the same density (in particular when the row is the only member of the
subset), or the density column is entirely missing.  A singleton group sitting
beside larger groups instead gets the extreme of the min-max scale. -/
theorem supply_gap_neutral_when_densities_equal (rows : List Row) (r : Row)
    (_hr : r ∈ rows) (hd : ∀ s ∈ rows, densityAt rows s = densityAt rows r) :
    (scoreRow rows r).program_supply_gap = 1/2 := by
  rw [scoreRow_supply_gap]
  have hcol : ∀ a ∈ (rows.map (densityAt rows)).filterMap id,
      ∀ b ∈ (rows.map (densityAt rows)).filterMap id, a = b := by
    intro a ha b hb
    obtain ⟨oa, hoa, hae⟩ := List.mem_filterMap.1 ha
    obtain ⟨ob, hob, hbe⟩ := List.mem_filterMap.1 hb
    obtain ⟨sa, hsa, rfl⟩ := List.mem_map.1 hoa
    obtain ⟨sb, hsb, rfl⟩ := List.mem_map.1 hob
    rw [hd sa hsa] at hae
    rw [hd sb hsb] at hbe
    simp only [id_eq] at hae hbe
    exact Option.some.inj (hae.symm.trans hbe)
  rw [minMaxAt_eq_half_of_valid_all_eq _ _ hcol]
  norm_num

/-- C6 witness: two rows of the same group (density 2 each) both receive the
neutral supply gap 0.5. -/
theorem supply_gap_neutral_when_densities_equal_witness :
    (scoreRow [rowDenseA, rowDenseB] rowDenseA).program_supply_gap = 1/2 :=
  supply_gap_neutral_when_densities_equal [rowDenseA, rowDenseB] rowDenseA
    (by simp)
    (by norm_num [densityAt, rowDenseA, rowDenseB, mkRow,
          List.filter_cons, List.filter_nil])

/-- C6 counterexample: in a subset holding one group of three rows and one
singleton group, the singleton's density 1 min-max-normalizes to 0 and its
`program_supply_gap` is 1, not the claimed neutral 0.5; no error occurs. -/
theorem singleton_group_supply_gap_not_half :
    ((buildFeatureSpace [rowDenseA, rowDenseB, rowDenseC, rowLoneC6]).map fun r =>
      (r.region_program_density, r.program_supply_gap)) =
      [(some 3, 0), (some 3, 0), (some 3, 0), (some 1, 1)] ∧ ((1 : ℚ) ≠ 1/2) := by
  refine ⟨?_, by norm_num⟩
  norm_num [buildFeatureSpace, scoreRow, minMaxAt, listMin, listMax, densityAt,
    rowDenseA, rowDenseB, rowDenseC, rowLoneC6, mkRow, max_def, min_def,
    List.filterMap_cons, List.filterMap_nil, id_eq, List.filter_cons, List.filter_nil]

/-- C7 (confirmed): `_min_max` sends every cell to 0.5 when the non-missing
values of the column are all equal (which covers the entirely-missing column,
the comparison being vacuous); otherwise each non-missing value maps to
`(x - min) / (max - min)` over the non-missing values only, and each missing
cell maps to 0.5 after scaling — missing cells never enter the min/max. -/
theorem min_max_normalization_contract (l : List (Option ℚ)) :
    ((∀ a ∈ l.filterMap id, ∀ b ∈ l.filterMap id, a = b) →
      minMax l = l.map fun _ => (1 : ℚ)/2) ∧
    (∀ v vs, l.filterMap id = v :: vs → listMax v vs - listMin v vs ≠ 0 →
      ∀ i, i < l.length →
        (∀ y, l.getD i none = some y →
          (minMax l).getD i 0 = (y - listMin v vs) / (listMax v vs - listMin v vs)) ∧
        (l.getD i none = none → (minMax l).getD i 0 = 1/2)) := by
  constructor
  · intro h
    unfold minMax
    exact List.map_congr_left fun x _ => minMaxAt_eq_half_of_valid_all_eq l x h
  · intro v vs heq hspan i hi
    have hmape : (minMax l).getD i 0 = minMaxAt l (l.getD i none) := by
      have hi2 : i < (minMax l).length := by simpa [minMax] using hi
      rw [List.getD_eq_getElem?_getD, List.getD_eq_getElem?_getD,
        List.getElem?_eq_getElem hi2, List.getElem?_eq_getElem hi]
      simp [minMax]
    constructor
    · intro y hy
      rw [hmape, hy, minMaxAt_some_eq l v vs heq hspan y]
    · intro hy
      rw [hmape, hy, minMaxAt_none]

/-- C7 witness: the contract instantiated at a column with a missing cell and
distinct non-missing values, and at an all-equal column. -/
theorem min_max_normalization_contract_witness :
    (minMax [some 2, some 2, none]).getD 0 0 = 1/2 ∧
    (minMax [some 1, none, some 3]).getD 0 0 = 0 ∧
    (minMax [some 1, none, some 3]).getD 1 0 = 1/2 ∧
    (minMax [some 1, none, some 3]).getD 2 0 = 1 := by
  have h1 := (min_max_normalization_contract [some 2, some 2, none]).1
    (by norm_num [List.filterMap_cons, List.filterMap_nil, id_eq])
  have h2 := (min_max_normalization_contract [some 1, none, some 3]).2 1 [3]
    (by norm_num [List.filterMap_cons, List.filterMap_nil, id_eq])
    (by norm_num [listMin, listMax, max_def, min_def])
  refine ⟨by rw [h1]; norm_num, ?_, ?_, ?_⟩
  · rw [(h2 0 (by norm_num)).1 1 rfl]
    norm_num [listMin, listMax, max_def, min_def]
  · exact (h2 1 (by norm_num)).2 rfl
  · rw [(h2 2 (by norm_num)).1 3 rfl]
    norm_num [listMin, listMax, max_def, min_def]

/-- C8 (confirmed): `_resolve_net_price` takes the first non-missing value of
the chain `avg_net_price`, `net_price_public`, `net_price_private`; a row with
the whole chain missing receives the median of the values the chain resolved
within the current subset, and when nothing in the subset is resolvable that
median defaults to 0.0 (no exception — the function is total). -/
theorem net_price_resolution_contract (rows : List Row) (r : Row) :
    (∀ v, r.avg_net_price = some v → netPriceAt rows r = v) ∧
    (r.avg_net_price = none → ∀ v, r.net_price_public = some v → netPriceAt rows r = v) ∧
    (r.avg_net_price = none → r.net_price_public = none →
      ∀ v, r.net_price_private = some v → netPriceAt rows r = v) ∧
    (r.avg_net_price = none → r.net_price_public = none → r.net_price_private = none →
      netPriceAt rows r = netPriceMedian rows) ∧
    (rows.filterMap netPriceBase = [] → netPriceMedian rows = 0) ∧
    (resolveNetPrice rows = rows.map (netPriceAt rows)) := by
  refine ⟨?_, ?_, ?_, ?_, ?_, rfl⟩
  · intro v hv
    simp [netPriceAt, netPriceBase, hv]
  · intro h0 v hv
    simp [netPriceAt, netPriceBase, h0, hv]
  · intro h0 h1 v hv
    simp [netPriceAt, netPriceBase, h0, h1, hv]
  · intro h0 h1 h2
    simp [netPriceAt, netPriceBase, h0, h1, h2]
  · intro h
    simp [netPriceMedian, h]

/-- C8 witness: a row with the whole chain missing receives the subset median
(10000, from the single resolvable peer); alone in the subset it receives 0.0;
a row with `avg_net_price` present keeps it. -/
theorem net_price_resolution_contract_witness :
    netPriceAt [rowAllMissingC8, rowBalancedW] rowAllMissingC8 = 10000 ∧
    netPriceAt [rowAllMissingC8] rowAllMissingC8 = 0 ∧
    netPriceAt [rowBalancedW] rowBalancedW = 10000 := by
  have h1 := net_price_resolution_contract [rowAllMissingC8, rowBalancedW] rowAllMissingC8
  have h2 := net_price_resolution_contract [rowAllMissingC8] rowAllMissingC8
  have h3 := net_price_resolution_contract [rowBalancedW] rowBalancedW
  refine ⟨?_, ?_, ?_⟩
  · rw [h1.2.2.2.1 (by simp [rowAllMissingC8, mkRow]) (by simp [rowAllMissingC8, mkRow])
      (by simp [rowAllMissingC8, mkRow])]
    norm_num [netPriceMedian, netPriceBase, medianQ, sortAsc, insertAsc,
      rowAllMissingC8, rowBalancedW, mkRow, List.filterMap_cons, List.filterMap_nil]
  · rw [h2.2.2.2.1 (by simp [rowAllMissingC8, mkRow]) (by simp [rowAllMissingC8, mkRow])
      (by simp [rowAllMissingC8, mkRow]),
      h2.2.2.2.2.1 (by simp [rowAllMissingC8, mkRow, List.filterMap_cons,
        List.filterMap_nil, netPriceBase])]
  · exact h3.1 10000 (by simp [rowBalancedW, mkRow])

/-- C9 (confirmed): an empty CIP string, credential level 0 and region 0 are
falsy in the source's truthiness guards, so each such filter is skipped
exactly as if it were absent: the ranking result is identical. -/
theorem falsy_filters_treated_as_absent (rows : List Row) (f : ProgramFilters) :
    rankPrograms rows { f with cip := some "" } = rankPrograms rows { f with cip := none } ∧
    rankPrograms rows { f with credential_level := some 0 } =
      rankPrograms rows { f with credential_level := none } ∧
    rankPrograms rows { f with region_id := some 0 } =
      rankPrograms rows { f with region_id := none } :=
  ⟨rfl, rfl, rfl⟩

/-- C10 (confirmed): `rank_programs` never reassigns the loaded frame — it
copies it — so the engine state after a request equals the state before, the
result is a pure function of that state and the filters, and a repeated
identical request returns the identical result. -/
theorem rank_leaves_engine_state_unchanged (e : ProgramDecisionEngine)
    (f : ProgramFilters) :
    (e.rank f).1 = e ∧ (e.rank f).2 = rankPrograms e.programs f ∧
    ((e.rank f).1.rank f).2 = (e.rank f).2 := by
  obtain ⟨ps⟩ := e
  exact ⟨rfl, rfl, rfl⟩
